import Mathlib

/-!
Shallow embedding of the silver-price-tracker client code.

The JavaScript sources embedded here:
  - `APIManager` (loadAPIConfig, isAPIAvailable, getFallbackAPIConfig,
    parseJSONPath, extractPrice, getCurrentPrice, tryAllLiveAPIs,
    tryIndividualAPI) from assets/js/modules/api-manager.js;
  - `DataManager.getLastKnownPrice` from the data-manager module;
  - `Utils.getTimeDifference` and `Utils.getTimeAgo` from the utils module;
  - the recipient-dispatch logic of `SilverGiftApp.loadAndRender` and the
    price label of `UIRenderer.createGiftContent`.

Modelling conventions:
  - JSON values are the inductive `JValue`; numbers are rationals (the
    claims under study never depend on float rounding, and non-finite
    values are outside the model).
  - `key in value` on a JSON-parsed value is own-property lookup: the
    entries of the object, or for arrays the index strings and "length".
  - Network effects are an oracle: each fetch attempt yields
    `Option JValue`, `none` covering HTTP errors, timeouts and malformed
    bodies, all of which the source turns into the same caught exception.
  - Millisecond timestamps are integers; `Math.floor` of a division of a
    non-negative integer by a positive literal is natural division.
-/

/-- A JSON value as produced by `JSON.parse`. -/
inductive JValue where
  | null : JValue
  | bool : Bool → JValue
  | num : ℚ → JValue
  | str : String → JValue
  | arr : List JValue → JValue
  | obj : List (String × JValue) → JValue
deriving Repr

/-- JS truthiness combined with the typeof-object test: true exactly for objects and
arrays among JSON values (`null` is falsy, strings have typeof string). -/
def jsTruthyObject : JValue → Bool
  | .obj _ => true
  | .arr _ => true
  | _ => false

/-- JS `key in value` restricted to own properties of JSON-parsed data:
the entries of an object; the index strings of an array and its `length`. -/
def jsIn (key : String) : JValue → Bool
  | .obj fields => fields.any (fun kv => kv.1 == key)
  | .arr xs => key == "length" || (List.range xs.length).any (fun i => toString i == key)
  | _ => false

/-- JS `value[key]` for the keys accepted by `jsIn`. -/
def jsGet (key : String) : JValue → JValue
  | .obj fields => (fields.lookup key).getD .null
  | .arr xs =>
      if key == "length" then .num (xs.length : ℚ)
      else ((List.range xs.length).find? (fun i => toString i == key)).elim .null
        (fun i => xs.getD i .null)
  | _ => .null

/-- Digit list to a natural number, most significant first. -/
def digitsVal (ds : List Char) : Nat :=
  ds.foldl (fun acc c => 10 * acc + (c.toNat - 48)) 0

/-- Leading-float parse over a character list: the core of JS `parseFloat`
(skip whitespace, optional sign, digits with optional fraction, optional
exponent that is ignored when its digits are missing). `none` is NaN. -/
def parseFloatChars (cs : List Char) : Option ℚ :=
  let cs := cs.dropWhile (fun c => c == ' ' || c == '\t' || c == '\n' || c == '\r')
  let signAndRest : ℚ × List Char :=
    match cs with
    | '-' :: rest => (-1, rest)
    | '+' :: rest => (1, rest)
    | _ => (1, cs)
  let sign := signAndRest.1
  let intPart := (signAndRest.2).span Char.isDigit
  let fracPart : List Char × List Char :=
    match intPart.2 with
    | '.' :: rest => rest.span Char.isDigit
    | _ => ([], intPart.2)
  if intPart.1.isEmpty && fracPart.1.isEmpty then none
  else
    let mantissa : ℚ :=
      (digitsVal intPart.1 : ℚ) + (digitsVal fracPart.1 : ℚ) / (10 : ℚ) ^ fracPart.1.length
    let expVal : Int :=
      match fracPart.2 with
      | e :: rest =>
        if e == 'e' || e == 'E' then
          match rest with
          | '-' :: ds => if (ds.span Char.isDigit).1.isEmpty then 0
              else -(digitsVal (ds.span Char.isDigit).1 : Int)
          | '+' :: ds => if (ds.span Char.isDigit).1.isEmpty then 0
              else (digitsVal (ds.span Char.isDigit).1 : Int)
          | ds => if (ds.span Char.isDigit).1.isEmpty then 0
              else (digitsVal (ds.span Char.isDigit).1 : Int)
        else 0
      | [] => 0
    some (sign * mantissa * (10 : ℚ) ^ expVal)

/-- JS `parseFloat` applied to a string. -/
def parseFloatLeading (s : String) : Option ℚ :=
  parseFloatChars s.toList

/-- JS `parseFloat(value)` on a JSON value: numbers round-trip, strings get
the leading-float parse, an array stringifies to the comma-join of its
elements so the parse sees its first element (an empty array gives the
empty string), everything else stringifies to a non-numeric word. -/
def jsParseFloat : JValue → Option ℚ
  | .num q => some q
  | .str s => parseFloatLeading s
  | .arr [] => none
  | .arr (v :: _) => jsParseFloat v
  | _ => none

/-- One configured endpoint from data/apis.json. `pricePath` embeds the
`price-path` field of the source, `rateConversion` its optional
`rate_conversion` field with the empty string for an absent field. -/
structure APIConfig where
  name : String
  url : String
  pricePath : String
  timePath : String
  authentication : String
  priority : Int
  description : String
  rateConversion : String
deriving Repr, DecidableEq

/-- A resolved price sample. A live sample object in the source has no
`isLastKnown` field; an absent field is falsy, embedded as `false`. -/
structure PriceSample where
  price : ℚ
  source : String
  timestamp : String
  isLive : Bool
  isLastKnown : Bool
  reliable : Bool
deriving Repr, DecidableEq

/-- Strip `sep` from the front of `cs`, or fail. -/
def stripSep : List Char → List Char → Option (List Char)
  | [], cs => some cs
  | _ :: _, [] => none
  | s :: ss, c :: cs => if s == c then stripSep ss cs else none

/-- Splitter loop for `jsSplit`: scan left to right, emitting a piece at
each occurrence of the separator. The fuel is the scanned length plus one,
so it never runs out; it only makes the recursion structural. -/
def jsSplitGo (sep : List Char) : Nat → List Char → List Char → List (List Char)
  | 0, _, acc => [acc.reverse]
  | _ + 1, [], acc => [acc.reverse]
  | fuel + 1, c :: cs, acc =>
    match stripSep sep (c :: cs) with
    | some rest => acc.reverse :: jsSplitGo sep fuel rest []
    | none => jsSplitGo sep fuel cs (c :: acc)

/-- JS `String.prototype.split` with a string separator (an empty
separator splits into single characters). -/
def jsSplit (s sep : String) : List String :=
  match sep.toList with
  | [] => s.toList.map (fun c => String.mk [c])
  | sc :: scs => (jsSplitGo (sc :: scs) (s.toList.length + 1) s.toList []).map String.mk

/-- The hand-coded alias table of `APIManager.parseJSONPath`. -/
def complexPaths : List (String × List String) :=
  [("Global Quote.05. price", ["Global Quote", "05. price"]),
   ("Global Quote.07. latest trading day", ["Global Quote", "07. latest trading day"]),
   ("rates.XAG", ["rates", "XAG"]),
   ("rates.USDXAG", ["rates", "USDXAG"])]

/-- `APIManager.parseJSONPath`: alias table first, then the
`Global Quote` special case, then a plain split on dots. -/
def parseJSONPath (pathString : String) : List String :=
  match complexPaths.lookup pathString with
  | some p => p
  | none =>
    if (jsSplit pathString "Global Quote").length != 1 then
      match jsSplit pathString "Global Quote." with
      | [_, p2] => ["Global Quote", p2]
      | _ => jsSplit pathString "."
    else jsSplit pathString "."

/-- The key walk inside `APIManager.extractPrice`: descend while the
current value is a truthy object carrying the key, else fail. -/
def walkPath : List String → JValue → Option JValue
  | [], v => some v
  | key :: rest, v =>
    if jsTruthyObject v && jsIn key v then walkPath rest (jsGet key v) else none

/-- `APIManager.extractPrice`: walk the parsed price path, `parseFloat` the
final value, reject NaN, then invert when `rate_conversion` equals "invert". -/
def extractPrice (data : JValue) (api : APIConfig) : Option ℚ :=
  match walkPath (parseJSONPath api.pricePath) data with
  | none => none
  | some v =>
    match jsParseFloat v with
    | none => none
    | some price => some (if api.rateConversion == "invert" then 1 / price else price)

/-- `APIManager.isAPIAvailable`: `params` is the set of query-parameter
names present in the page URL (`URLSearchParams.has`). -/
def isAPIAvailable (params : List String) (api : APIConfig) : Bool :=
  if api.authentication == "none" then true
  else params.contains api.authentication

/-- `APIManager.getFallbackAPIConfig`. -/
def getFallbackAPIConfig : List APIConfig :=
  [{ name := "gold-api",
     url := "https://api.gold-api.com/price/XAG",
     pricePath := "price",
     timePath := "updatedAt",
     authentication := "none",
     priority := 1,
     description := "Fallback API configuration",
     rateConversion := "" }]

/-- Insert `a` after every element whose priority does not exceed that of `a`:
the insertion step of a stable ascending sort. -/
def insertStable (a : APIConfig) : List APIConfig → List APIConfig
  | [] => [a]
  | b :: l => if b.priority ≤ a.priority then b :: insertStable a l else a :: b :: l

/-- The `config.sort((a, b) => a.priority - b.priority)` call of
`APIManager.loadAPIConfig`: JS `sort` is stable and sorted by the
comparator, which this stable insertion sort realises. -/
def sortByPriority (config : List APIConfig) : List APIConfig :=
  config.foldl (fun acc a => insertStable a acc) []

/-- `APIManager.loadAPIConfig`. `config?` is the JSON loaded from
data/apis.json, `none` when loading failed or the document is not an
array; both hit the fallback branch. -/
def loadAPIConfig (config? : Option (List APIConfig)) (params : List String) :
    List APIConfig :=
  match config? with
  | none => getFallbackAPIConfig
  | some config =>
    let availableAPIs := (sortByPriority config).filter (isAPIAvailable params)
    if availableAPIs.length > 0 then availableAPIs else getFallbackAPIConfig

/-- One attempt inside `APIManager.tryIndividualAPI`: `data?` is the fetch
outcome (`none` for HTTP error, timeout or malformed body). The success
test is `price && price >= 10 && price <= 200` from the source on the
extracted value, `null` and `0` being falsy. -/
def attemptOutcome (api : APIConfig) (nowISO : String) (data? : Option JValue) :
    Option PriceSample :=
  match data? with
  | none => none
  | some data =>
    match extractPrice data api with
    | none => none
    | some price =>
      if price != 0 && decide (10 ≤ price) && decide (price ≤ 200) then
        some { price := price, source := api.name, timestamp := nowISO,
               isLive := true, isLastKnown := false, reliable := true }
      else none

/-- `maxAttempts` of `APIManager.tryIndividualAPI`. -/
def maxAttempts : Nat := 3

/-- The retry loop of `APIManager.tryIndividualAPI`, unrolled on the number
of remaining attempts. `fetch` gives the outcome of each attempt. Returns the
result, the number of attempts made, and the backoff delays in ms
(`500 * attempt`, slept only when a failed attempt is not the last). -/
def tryIndividualAPIGo (api : APIConfig) (nowISO : String)
    (fetch : Nat → Option JValue) :
    Nat → Nat → Option PriceSample × Nat × List Nat
  | _, 0 => (none, 0, [])
  | attempt, remaining + 1 =>
    match attemptOutcome api nowISO (fetch attempt) with
    | some r => (some r, 1, [])
    | none =>
      if remaining = 0 then (none, 1, [])
      else
        let next := tryIndividualAPIGo api nowISO fetch (attempt + 1) remaining
        (next.1, next.2.1 + 1, 500 * attempt :: next.2.2)

/-- `APIManager.tryIndividualAPI` with its attempt/delay trace. -/
def tryIndividualAPIFull (api : APIConfig) (nowISO : String)
    (fetch : Nat → Option JValue) : Option PriceSample × Nat × List Nat :=
  tryIndividualAPIGo api nowISO fetch 1 maxAttempts

/-- `APIManager.tryIndividualAPI`: the returned value alone. -/
def tryIndividualAPI (api : APIConfig) (nowISO : String)
    (fetch : Nat → Option JValue) : Option PriceSample :=
  (tryIndividualAPIFull api nowISO fetch).1

/-- The loop of `APIManager.tryAllLiveAPIs` over the configured list,
also recording which endpoints were attempted (each visited endpoint gets
a `tryIndividualAPI` call). `fetch i k` is the outcome of attempt `k`
against the endpoint at position `i`. -/
def tryAllLiveAPIsGo (fetch : Nat → Nat → Option JValue) (nowISO : String) :
    Nat → List APIConfig → Option PriceSample × List APIConfig
  | _, [] => (none, [])
  | i, api :: rest =>
    match tryIndividualAPI api nowISO (fetch i) with
    | some result => (some result, [api])
    | none =>
      let next := tryAllLiveAPIsGo fetch nowISO (i + 1) rest
      (next.1, api :: next.2)

/-- `APIManager.tryAllLiveAPIs` with its attempted-endpoint trace. -/
def tryAllLiveAPIsFull (config? : Option (List APIConfig)) (params : List String)
    (fetch : Nat → Nat → Option JValue) (nowISO : String) :
    Option PriceSample × List APIConfig :=
  tryAllLiveAPIsGo fetch nowISO 0 (loadAPIConfig config? params)

/-- `APIManager.tryAllLiveAPIs`: the returned value alone. -/
def tryAllLiveAPIs (config? : Option (List APIConfig)) (params : List String)
    (fetch : Nat → Nat → Option JValue) (nowISO : String) : Option PriceSample :=
  (tryAllLiveAPIsFull config? params fetch nowISO).1

/-- One entry of data/daily-prices.json. `source?` is `none` when the
entry has no `source` field (`lastEntry.source` defaulted to "historical"). -/
structure DailyEntry where
  date : String
  price : ℚ
  source? : Option String
deriving Repr, DecidableEq

/-- `DataManager.getLastKnownPrice`. `daily?` is the loaded
daily-prices.json document: `none` when the document is not an array, and
`some []` when loading failed (the fallback value is `[]`). -/
def getLastKnownPrice (daily? : Option (List DailyEntry)) : Option PriceSample :=
  match daily? with
  | none => none
  | some dailyPrices =>
    match dailyPrices.getLast? with
    | none => none
    | some lastEntry =>
      some { price := lastEntry.price,
             source := match lastEntry.source? with
                       | some s => if s == "" then "historical" else s
                       | none => "historical",
             timestamp := lastEntry.date ++ "T12:00:00Z",
             isLive := false, isLastKnown := true, reliable := false }

/-- `APIManager.getCurrentPrice`: live first, then the last known price
(a returned sample object is always truthy). -/
def getCurrentPrice (config? : Option (List APIConfig)) (params : List String)
    (fetch : Nat → Nat → Option JValue) (nowISO : String)
    (daily? : Option (List DailyEntry)) : Option PriceSample :=
  match tryAllLiveAPIs config? params fetch nowISO with
  | some livePrice => some livePrice
  | none => getLastKnownPrice daily?

/-- One record of data/recipients.json. -/
structure RecipientRecord where
  recipientName : String
  giverName : String
  giftDate : String
  initialPrice : ℚ
  silverAmount : ℚ
deriving Repr, DecidableEq

/-- What `SilverGiftApp.loadAndRender` ends up rendering. In the gift
view, `record?` is `none` when the value at the identifier is an
inherited `Object.prototype` member rather than a recipient record: the
page then renders with undefined recipient fields. -/
inductive RenderView where
  | selectorView (recipients : List (String × RecipientRecord))
  | giftView (record? : Option RecipientRecord) (sample : Option PriceSample)
  | errorView (message : String)
deriving Repr, DecidableEq

/-- The member names every plain JS object inherits from
`Object.prototype`; each of their values (functions, or the prototype
itself for `__proto__`) is truthy under the bracket lookup. -/
def objectProtoKeys : List String :=
  ["constructor", "hasOwnProperty", "isPrototypeOf", "propertyIsEnumerable",
   "toLocaleString", "toString", "valueOf",
   "__defineGetter__", "__defineSetter__", "__lookupGetter__",
   "__lookupSetter__", "__proto__"]

/-- The dispatch of `SilverGiftApp.loadAndRender`: a falsy recipient id
(absent, or the empty string) shows the selector. Otherwise the JS test
`!recipientsData[recipientId]` looks the id up through the prototype
chain: an own key of the map yields its record, and an inherited
`Object.prototype` member name is also truthy and reaches the gift page
(with no recipient record); only an id found nowhere on the chain shows
the selector. The error view is only produced by the catch-all in
`init`, which this pure dispatch never reaches. -/
def loadAndRender (recipientId : Option String)
    (recipients : List (String × RecipientRecord))
    (config? : Option (List APIConfig)) (params : List String)
    (fetch : Nat → Nat → Option JValue) (nowISO : String)
    (daily? : Option (List DailyEntry)) : RenderView :=
  match recipientId with
  | none => .selectorView recipients
  | some rid =>
    if rid == "" then .selectorView recipients
    else
      match recipients.lookup rid with
      | some record =>
        .giftView (some record) (getCurrentPrice config? params fetch nowISO daily?)
      | none =>
        if objectProtoKeys.contains rid then
          .giftView none (getCurrentPrice config? params fetch nowISO daily?)
        else .selectorView recipients

/-- The price label of `UIRenderer.createGiftContent`:
the conditional on `currentPriceData.isLastKnown`. -/
def priceLabel (sample : PriceSample) : String :=
  if sample.isLastKnown then "Last known value" else "Current value"

/-- `Utils.getTimeDifference`, on millisecond clock readings: the source
takes `Math.abs(today - giftDate)`, floors to whole days, splits by 365. -/
def getTimeDifference (nowMs giftMs : Int) : String :=
  let diffDays := (nowMs - giftMs).natAbs / 86400000
  let years := diffDays / 365
  let remainingDays := diffDays % 365
  if years > 0 && remainingDays > 0 then
    toString years ++ " " ++ (if years == 1 then "year" else "years") ++ ", " ++
      toString remainingDays ++ " " ++ (if remainingDays == 1 then "day" else "days") ++ " ago"
  else if years > 0 then
    toString years ++ " " ++ (if years == 1 then "year" else "years") ++ " ago"
  else if remainingDays > 0 then
    toString remainingDays ++ " " ++ (if remainingDays == 1 then "day" else "days") ++ " ago"
  else "today"

/-- `Utils.getTimeAgo`, on millisecond clock readings. `timestamp?` is
`none` for a falsy timestamp argument. Divisions happen on the branch
where `diffMs` is non-negative, so they are natural divisions. -/
def getTimeAgo (nowMs : Int) (timestamp? : Option Int) : String :=
  match timestamp? with
  | none => "unknown time"
  | some thenMs =>
    let diffMs := nowMs - thenMs
    if diffMs < 0 then "recently"
    else
      let diffMinutes := diffMs.toNat / 60000
      let diffHours := diffMs.toNat / 3600000
      let diffDays := diffMs.toNat / 86400000
      if diffMinutes < 1 then "just now"
      else if diffMinutes < 60 then
        toString diffMinutes ++ " minute" ++ (if diffMinutes == 1 then "" else "s") ++ " ago"
      else if diffHours < 24 then
        toString diffHours ++ " hour" ++ (if diffHours == 1 then "" else "s") ++ " ago"
      else if diffDays < 7 then
        toString diffDays ++ " day" ++ (if diffDays == 1 then "" else "s") ++ " ago"
      else if diffDays < 30 then
        toString (diffDays / 7) ++ " week" ++ (if diffDays / 7 == 1 then "" else "s") ++ " ago"
      else if diffDays < 365 then
        toString (diffDays / 30) ++ " month" ++ (if diffDays / 30 == 1 then "" else "s") ++ " ago"
      else
        toString (diffDays / 365) ++ " year" ++ (if diffDays / 365 == 1 then "" else "s") ++ " ago"

/-- A sample open endpoint with priority 1, for concrete runs. -/
def sampleAPIA : APIConfig :=
  { name := "alpha", url := "https://a.example/x", pricePath := "price",
    timePath := "t", authentication := "none", priority := 1,
    description := "sample A", rateConversion := "" }

/-- A sample open endpoint with priority 2, for concrete runs. -/
def sampleAPIB : APIConfig :=
  { name := "beta", url := "https://b.example/x", pricePath := "price",
    timePath := "t", authentication := "none", priority := 2,
    description := "sample B", rateConversion := "" }

/-- A sample endpoint requiring an `apikey` query parameter. -/
def sampleAuthAPI : APIConfig :=
  { name := "gamma", url := "https://c.example/x", pricePath := "price",
    timePath := "t", authentication := "apikey", priority := 3,
    description := "sample C", rateConversion := "" }

/-- A sample API response carrying an in-band price. -/
def sampleResponse : JValue := .obj [("price", .num 31)]

/-- A sample API response whose price is below the accepted band. -/
def sampleLowResponse : JValue := .obj [("price", .num 5)]

/-- A sample historical daily-price entry. -/
def sampleEntry : DailyEntry := { date := "2024-01-02", price := 30, source? := none }

/-- A sample recipient record. -/
def sampleRecipient : RecipientRecord :=
  { recipientName := "Alice", giverName := "Bob", giftDate := "2020-01-01",
    initialPrice := 20, silverAmount := 2 }

/-- The live sample a successful fallback-endpoint run produces from
`sampleResponse` at clock reading "now". -/
def sampleLiveSample : PriceSample :=
  { price := 31, source := "gold-api", timestamp := "now",
    isLive := true, isLastKnown := false, reliable := true }

theorem append_ago_ne_empty (s : String) : s ++ " ago" ≠ "" := by
  intro h
  have h1 : (s ++ " ago").length = ("" : String).length := by rw [h]
  rw [String.length_append] at h1
  have h2 : (" ago" : String).length = 4 := rfl
  have h3 : ("" : String).length = 0 := rfl
  omega

theorem mem_insertStable {c a : APIConfig} :
    ∀ {l : List APIConfig}, c ∈ insertStable a l → c = a ∨ c ∈ l := by
  intro l
  induction l with
  | nil =>
    intro h
    simp [insertStable] at h
    exact Or.inl h
  | cons b l ih =>
    intro h
    unfold insertStable at h
    by_cases hba : b.priority ≤ a.priority
    · rw [if_pos hba] at h
      rcases List.mem_cons.mp h with rfl | h2
      · exact Or.inr (List.mem_cons_self _ _)
      · rcases ih h2 with h3 | h3
        · exact Or.inl h3
        · exact Or.inr (List.mem_cons_of_mem _ h3)
    · rw [if_neg hba] at h
      rcases List.mem_cons.mp h with rfl | h2
      · exact Or.inl rfl
      · exact Or.inr h2

theorem pairwise_insertStable (a : APIConfig) :
    ∀ (l : List APIConfig), l.Pairwise (fun x y => x.priority ≤ y.priority) →
      (insertStable a l).Pairwise (fun x y => x.priority ≤ y.priority) := by
  intro l
  induction l with
  | nil => intro _; simp [insertStable]
  | cons b l ih =>
    intro h
    rcases List.pairwise_cons.mp h with ⟨hb, hl⟩
    unfold insertStable
    by_cases hba : b.priority ≤ a.priority
    · rw [if_pos hba]
      refine List.pairwise_cons.mpr ⟨?_, ih hl⟩
      intro c hc
      rcases mem_insertStable hc with rfl | hcl
      · exact hba
      · exact hb c hcl
    · rw [if_neg hba]
      refine List.pairwise_cons.mpr ⟨?_, h⟩
      intro c hc
      rcases List.mem_cons.mp hc with rfl | hcl
      · omega
      · have := hb c hcl
        omega

theorem pairwise_sortByPriority (config : List APIConfig) :
    (sortByPriority config).Pairwise (fun x y => x.priority ≤ y.priority) := by
  have main : ∀ (l acc : List APIConfig),
      acc.Pairwise (fun x y => x.priority ≤ y.priority) →
      (l.foldl (fun acc a => insertStable a acc) acc).Pairwise
        (fun x y => x.priority ≤ y.priority) := by
    intro l
    induction l with
    | nil => intro acc h; simpa using h
    | cons a l ih =>
      intro acc h
      rw [List.foldl_cons]
      exact ih _ (pairwise_insertStable a acc h)
  exact main config [] (by simp)

theorem pairwise_loadAPIConfig (config? : Option (List APIConfig)) (params : List String) :
    (loadAPIConfig config? params).Pairwise (fun x y => x.priority ≤ y.priority) := by
  cases config? with
  | none => simp [loadAPIConfig, getFallbackAPIConfig]
  | some config =>
    simp only [loadAPIConfig]
    split
    · exact (pairwise_sortByPriority config).filter _
    · simp [getFallbackAPIConfig]

theorem tryAllLiveAPIsGo_attempted_sublist (fetch : Nat → Nat → Option JValue)
    (nowISO : String) :
    ∀ (l : List APIConfig) (i : Nat),
      List.Sublist (tryAllLiveAPIsGo fetch nowISO i l).2 l := by
  intro l
  induction l with
  | nil => intro i; simp [tryAllLiveAPIsGo]
  | cons api rest ih =>
    intro i
    unfold tryAllLiveAPIsGo
    cases tryIndividualAPI api nowISO (fetch i) with
    | some r => exact (List.nil_sublist rest).cons₂ api
    | none => exact (ih (i + 1)).cons₂ api

theorem not_mem_getFallbackAPIConfig (api : APIConfig)
    (hauth : api.authentication ≠ "none") : api ∉ getFallbackAPIConfig := by
  intro h
  simp [getFallbackAPIConfig] at h
  subst h
  exact hauth rfl

theorem attemptOutcome_shape {api : APIConfig} {nowISO : String}
    {data? : Option JValue} {s : PriceSample}
    (h : attemptOutcome api nowISO data? = some s) :
    s.isLive = true ∧ s.isLastKnown = false ∧ s.reliable = true ∧
      10 ≤ s.price ∧ s.price ≤ 200 := by
  cases data? with
  | none => simp [attemptOutcome] at h
  | some data =>
    unfold attemptOutcome at h
    dsimp only at h
    rcases he : extractPrice data api with _ | p
    · rw [he] at h
      simp at h
    · rw [he] at h
      dsimp only at h
      by_cases hc : (p != 0 && decide (10 ≤ p) && decide (p ≤ 200)) = true
      · rw [if_pos hc] at h
        injection h with h
        subst h
        simp only [Bool.and_eq_true, bne_iff_ne, decide_eq_true_eq] at hc
        exact ⟨rfl, rfl, rfl, hc.1.2, hc.2⟩
      · rw [if_neg hc] at h
        exact absurd h (by simp)

theorem tryIndividualAPIGo_some {api : APIConfig} {nowISO : String}
    {fetch : Nat → Option JValue} :
    ∀ {r attempt : Nat} {s : PriceSample},
      (tryIndividualAPIGo api nowISO fetch attempt r).1 = some s →
      ∃ k, attemptOutcome api nowISO (fetch k) = some s := by
  intro r
  induction r with
  | zero =>
    intro attempt s h
    simp [tryIndividualAPIGo] at h
  | succ r ih =>
    intro attempt s h
    unfold tryIndividualAPIGo at h
    rcases ho : attemptOutcome api nowISO (fetch attempt) with _ | res
    · rw [ho] at h
      dsimp only at h
      by_cases hr : r = 0
      · rw [if_pos hr] at h
        exact absurd h (by simp)
      · rw [if_neg hr] at h
        exact ih h
    · rw [ho] at h
      dsimp only at h
      injection h with h
      subst h
      exact ⟨attempt, ho⟩

theorem tryAllLiveAPIsGo_some {fetch : Nat → Nat → Option JValue} {nowISO : String} :
    ∀ {l : List APIConfig} {i : Nat} {s : PriceSample},
      (tryAllLiveAPIsGo fetch nowISO i l).1 = some s →
      ∃ api k j, attemptOutcome api nowISO (fetch j k) = some s := by
  intro l
  induction l with
  | nil =>
    intro i s h
    simp [tryAllLiveAPIsGo] at h
  | cons api rest ih =>
    intro i s h
    unfold tryAllLiveAPIsGo at h
    rcases hind : tryIndividualAPI api nowISO (fetch i) with _ | res
    · rw [hind] at h
      dsimp only at h
      exact ih h
    · rw [hind] at h
      dsimp only at h
      injection h with h
      subst h
      rcases tryIndividualAPIGo_some hind with ⟨k, hk⟩
      exact ⟨api, k, i, hk⟩

theorem getLastKnownPrice_shape {daily? : Option (List DailyEntry)} {s : PriceSample}
    (h : getLastKnownPrice daily? = some s) :
    s.isLive = false ∧ s.isLastKnown = true ∧ s.reliable = false := by
  cases daily? with
  | none => simp [getLastKnownPrice] at h
  | some dailyPrices =>
    unfold getLastKnownPrice at h
    dsimp only at h
    rcases hl : dailyPrices.getLast? with _ | lastEntry
    · rw [hl] at h
      simp at h
    · rw [hl] at h
      dsimp only at h
      injection h with h
      subst h
      exact ⟨rfl, rfl, rfl⟩

theorem getCurrentPrice_shape {config? : Option (List APIConfig)} {params : List String}
    {fetch : Nat → Nat → Option JValue} {nowISO : String}
    {daily? : Option (List DailyEntry)} {s : PriceSample}
    (h : getCurrentPrice config? params fetch nowISO daily? = some s) :
    (s.isLive = true ∧ s.isLastKnown = false ∧ s.reliable = true ∧
      10 ≤ s.price ∧ s.price ≤ 200) ∨
    (s.isLive = false ∧ s.isLastKnown = true ∧ s.reliable = false) := by
  unfold getCurrentPrice at h
  rcases hl : tryAllLiveAPIs config? params fetch nowISO with _ | live
  · rw [hl] at h
    dsimp only at h
    exact Or.inr (getLastKnownPrice_shape h)
  · rw [hl] at h
    dsimp only at h
    injection h with h
    subst h
    rcases tryAllLiveAPIsGo_some hl with ⟨api, k, j, hk⟩
    exact Or.inl (attemptOutcome_shape hk)

theorem tryIndividualAPIGo_attempts_le (api : APIConfig) (nowISO : String)
    (fetch : Nat → Option JValue) :
    ∀ (r attempt : Nat), (tryIndividualAPIGo api nowISO fetch attempt r).2.1 ≤ r := by
  intro r
  induction r with
  | zero => intro attempt; simp [tryIndividualAPIGo]
  | succ r ih =>
    intro attempt
    unfold tryIndividualAPIGo
    rcases attemptOutcome api nowISO (fetch attempt) with _ | res
    · dsimp only
      by_cases hr : r = 0
      · rw [if_pos hr]
        dsimp only
        omega
      · rw [if_neg hr]
        have := ih (attempt + 1)
        dsimp only
        omega
    · dsimp only
      omega

theorem tryIndividualAPIGo_delays (api : APIConfig) (nowISO : String)
    (fetch : Nat → Option JValue) :
    ∀ (r attempt : Nat), 1 ≤ attempt →
      ((tryIndividualAPIGo api nowISO fetch attempt r).2.2).Chain' (· < ·) ∧
      ∀ d ∈ (tryIndividualAPIGo api nowISO fetch attempt r).2.2, 500 * attempt ≤ d := by
  intro r
  induction r with
  | zero =>
    intro attempt _
    simp [tryIndividualAPIGo]
  | succ r ih =>
    intro attempt hatt
    unfold tryIndividualAPIGo
    rcases attemptOutcome api nowISO (fetch attempt) with _ | res
    · dsimp only
      by_cases hr : r = 0
      · rw [if_pos hr]
        simp
      · rw [if_neg hr]
        rcases ih (attempt + 1) (by omega) with ⟨hchain, hbound⟩
        dsimp only
        constructor
        · refine List.chain'_cons'.mpr ⟨?_, hchain⟩
          intro y hy
          have := hbound y (List.mem_of_mem_head? hy)
          omega
        · intro d hd
          rcases List.mem_cons.mp hd with rfl | hd2
          · omega
          · have := hbound d hd2
            omega
    · dsimp only
      simp

theorem tryIndividualAPIGo_none (api : APIConfig) (nowISO : String)
    (fetch : Nat → Option JValue)
    (hall : ∀ k, attemptOutcome api nowISO (fetch k) = none) :
    ∀ (r attempt : Nat), (tryIndividualAPIGo api nowISO fetch attempt r).1 = none := by
  intro r
  induction r with
  | zero => intro attempt; simp [tryIndividualAPIGo]
  | succ r ih =>
    intro attempt
    unfold tryIndividualAPIGo
    rw [hall attempt]
    dsimp only
    by_cases hr : r = 0
    · rw [if_pos hr]
    · rw [if_neg hr]
      exact ih (attempt + 1)

/-- Claim C1: the orchestrator attempts endpoints in ascending priority
order: among the endpoints actually attempted by `tryAllLiveAPIs` over a
loaded configuration, one with a strictly smaller priority value always
occurs at an earlier position. -/
theorem C1_ascending_priority_order (config? : Option (List APIConfig))
    (params : List String) (fetch : Nat → Nat → Option JValue) (nowISO : String)
    (i j : Nat) (a b : APIConfig)
    (ha : (tryAllLiveAPIsFull config? params fetch nowISO).2[i]? = some a)
    (hb : (tryAllLiveAPIsFull config? params fetch nowISO).2[j]? = some b)
    (hab : a.priority < b.priority) : i < j := by
  have hpair : (tryAllLiveAPIsFull config? params fetch nowISO).2.Pairwise
      (fun x y => x.priority ≤ y.priority) :=
    List.Pairwise.sublist
      (tryAllLiveAPIsGo_attempted_sublist fetch nowISO (loadAPIConfig config? params) 0)
      (pairwise_loadAPIConfig config? params)
  rcases List.getElem?_eq_some_iff.mp ha with ⟨hi, hia⟩
  rcases List.getElem?_eq_some_iff.mp hb with ⟨hj, hjb⟩
  by_contra hij
  push_neg at hij
  rcases Nat.eq_or_lt_of_le hij with heq | hlt
  · subst heq
    rw [hia] at hjb
    subst hjb
    exact absurd hab (lt_irrefl _)
  · have := List.pairwise_iff_getElem.mp hpair j i hj hi hlt
    rw [hia, hjb] at this
    omega

/-- Closed instance of claim C1: with both sample endpoints configured in
reverse order and every fetch failing, the attempted list is sorted and
the lower-priority endpoint comes first. -/
theorem C1_witness :
    (tryAllLiveAPIsFull (some [sampleAPIB, sampleAPIA]) [] (fun _ _ => none) "now").2[0]?
      = some sampleAPIA ∧
    (tryAllLiveAPIsFull (some [sampleAPIB, sampleAPIA]) [] (fun _ _ => none) "now").2[1]?
      = some sampleAPIB ∧
    sampleAPIA.priority < sampleAPIB.priority ∧ (0 : Nat) < 1 :=
  ⟨rfl, rfl, by decide,
    C1_ascending_priority_order (some [sampleAPIB, sampleAPIA]) [] (fun _ _ => none) "now"
      0 1 sampleAPIA sampleAPIB rfl rfl (by decide)⟩

/-- Claim C2: an endpoint whose authentication parameter is not "none" and
absent from the URL query parameters is unavailable, excluded from the
loaded configuration, and never attempted by the orchestrator. -/
theorem C2_auth_missing_never_attempted (api : APIConfig)
    (config? : Option (List APIConfig)) (params : List String)
    (fetch : Nat → Nat → Option JValue) (nowISO : String)
    (hauth : api.authentication ≠ "none")
    (habsent : api.authentication ∉ params) :
    isAPIAvailable params api = false ∧
    api ∉ loadAPIConfig config? params ∧
    api ∉ (tryAllLiveAPIsFull config? params fetch nowISO).2 := by
  have hav : isAPIAvailable params api = false := by
    simp [isAPIAvailable, hauth, habsent]
  have hnotin : api ∉ loadAPIConfig config? params := by
    intro hmem
    cases config? with
    | none => exact not_mem_getFallbackAPIConfig api hauth hmem
    | some config =>
      simp only [loadAPIConfig] at hmem
      split at hmem
      · have := (List.mem_filter.mp hmem).2
        rw [hav] at this
        exact absurd this (by simp)
      · exact not_mem_getFallbackAPIConfig api hauth hmem
  refine ⟨hav, hnotin, fun hmem => hnotin ?_⟩
  exact (tryAllLiveAPIsGo_attempted_sublist fetch nowISO
    (loadAPIConfig config? params) 0).subset hmem

/-- Closed instance of claim C2: the auth-requiring sample endpoint is
dropped from its own configuration when no query parameters are set. -/
theorem C2_witness :
    sampleAuthAPI.authentication ≠ "none" ∧
    sampleAuthAPI.authentication ∉ ([] : List String) ∧
    sampleAuthAPI ∉ loadAPIConfig (some [sampleAuthAPI]) [] := by
  refine ⟨by decide, by simp, ?_⟩
  exact (C2_auth_missing_never_attempted sampleAuthAPI (some [sampleAuthAPI]) []
    (fun _ _ => none) "now" (by decide) (by simp)).2.1

/-- Claim C3: an extracted price strictly below 10 or strictly above 200
makes the attempt fail with no sample, and every live sample the
orchestrator returns has its price in the closed interval [10, 200]. -/
theorem C3_price_band (api : APIConfig) (nowISO : String)
    (fetchOne : Nat → Option JValue) (config? : Option (List APIConfig))
    (params : List String) (fetch : Nat → Nat → Option JValue)
    (daily? : Option (List DailyEntry)) :
    (∀ (data : JValue) (p : ℚ), extractPrice data api = some p →
      (p < 10 ∨ 200 < p) → attemptOutcome api nowISO (some data) = none) ∧
    (∀ s, tryIndividualAPI api nowISO fetchOne = some s →
      10 ≤ s.price ∧ s.price ≤ 200) ∧
    (∀ s, getCurrentPrice config? params fetch nowISO daily? = some s →
      s.isLive = true → 10 ≤ s.price ∧ s.price ≤ 200) := by
  refine ⟨?_, ?_, ?_⟩
  · intro data p hp hband
    unfold attemptOutcome
    dsimp only
    rw [hp]
    dsimp only
    rw [if_neg]
    simp only [Bool.and_eq_true, bne_iff_ne, decide_eq_true_eq, not_and]
    intro hA h200
    rcases hband with hb | hb
    · exact absurd hA.2 (not_le.mpr hb)
    · exact absurd h200 (not_le.mpr hb)
  · intro s hs
    rcases tryIndividualAPIGo_some hs with ⟨k, hk⟩
    rcases attemptOutcome_shape hk with ⟨_, _, _, h10, h200⟩
    exact ⟨h10, h200⟩
  · intro s hs hlive
    rcases getCurrentPrice_shape hs with ⟨_, _, _, h10, h200⟩ | ⟨hfalse, _, _⟩
    · exact ⟨h10, h200⟩
    · rw [hlive] at hfalse
      exact absurd hfalse (by simp)

/-- Closed instance of claim C3: an extracted price of 5 is rejected. -/
theorem C3_witness :
    extractPrice sampleLowResponse sampleAPIA = some 5 ∧
    ((5 : ℚ) < 10 ∨ (200 : ℚ) < 5) ∧
    attemptOutcome sampleAPIA "now" (some sampleLowResponse) = none := by
  refine ⟨rfl, Or.inl (by decide), ?_⟩
  exact (C3_price_band sampleAPIA "now" (fun _ => none) none [] (fun _ _ => none)
    none).1 sampleLowResponse 5 rfl (Or.inl (by decide))

/-- Claim C4: when every live attempt fails, a non-empty historical series
yields a sample carrying the price of the last entry, not live and marked last
known; an empty or unloadable series yields no sample. -/
theorem C4_last_known_fallback (config? : Option (List APIConfig))
    (params : List String) (fetch : Nat → Nat → Option JValue) (nowISO : String)
    (daily? : Option (List DailyEntry))
    (hlive : tryAllLiveAPIs config? params fetch nowISO = none) :
    (∀ l e, daily? = some l → l.getLast? = some e →
      ∃ s, getCurrentPrice config? params fetch nowISO daily? = some s ∧
        s.price = e.price ∧ s.isLive = false ∧ s.isLastKnown = true) ∧
    ((daily? = none ∨ daily? = some []) →
      getCurrentPrice config? params fetch nowISO daily? = none) := by
  unfold getCurrentPrice
  rw [hlive]
  dsimp only
  constructor
  · intro l e hd he
    subst hd
    unfold getLastKnownPrice
    dsimp only
    rw [he]
    dsimp only
    exact ⟨_, rfl, rfl, rfl, rfl⟩
  · rintro (rfl | rfl) <;> simp [getLastKnownPrice]

/-- Closed instance of claim C4: with no loadable configuration and all
fetches failing, the single-entry series is served as last known. -/
theorem C4_witness :
    tryAllLiveAPIs none [] (fun _ _ => none) "now" = none ∧
    ∃ s, getCurrentPrice none [] (fun _ _ => none) "now" (some [sampleEntry]) = some s ∧
      s.price = sampleEntry.price ∧ s.isLive = false ∧ s.isLastKnown = true := by
  refine ⟨rfl, ?_⟩
  exact (C4_last_known_fallback none [] (fun _ _ => none) "now" (some [sampleEntry])
    rfl).1 [sampleEntry] sampleEntry rfl rfl

/-- Claim C5: a gift date exactly 365 days before the current date makes
`getTimeDifference` report "1 year ago". -/
theorem C5_one_year_ago (nowMs giftMs : Int)
    (h : nowMs - giftMs = 365 * 86400000) :
    getTimeDifference nowMs giftMs = "1 year ago" := by
  unfold getTimeDifference
  rw [h]
  rfl

/-- Closed instance of claim C5 at the epoch plus 365 days. -/
theorem C5_witness :
    (31536000000 : Int) - 0 = 365 * 86400000 ∧
    getTimeDifference 31536000000 0 = "1 year ago" :=
  ⟨by decide, C5_one_year_ago 31536000000 0 (by decide)⟩

/-- Counterexample to claim C6 as stated: the identifier "toString" is
absent from the recipient map, yet the JS lookup finds the inherited,
truthy `Object.prototype.toString`, so the program renders the gift view
(with no recipient record) instead of the selection list. -/
theorem C6_counterexample :
    ([("alice", sampleRecipient)].lookup "toString" = (none : Option RecipientRecord)) ∧
    loadAndRender (some "toString") [("alice", sampleRecipient)] none []
      (fun _ _ => none) "now" none = .giftView none none ∧
    loadAndRender (some "toString") [("alice", sampleRecipient)] none []
      (fun _ _ => none) "now" none ≠ .selectorView [("alice", sampleRecipient)] := by
  refine ⟨rfl, rfl, ?_⟩
  intro hc
  exact absurd hc (by decide)

/-- Claim C6 (amended): an absent recipient identifier, or one missing
from the recipient map that does not name an inherited
`Object.prototype` member, renders the recipient-selection list and
never the error view. -/
theorem C6_unknown_recipient_selector (recipientId : Option String)
    (recipients : List (String × RecipientRecord))
    (config? : Option (List APIConfig)) (params : List String)
    (fetch : Nat → Nat → Option JValue) (nowISO : String)
    (daily? : Option (List DailyEntry))
    (h : recipientId = none ∨
      ∃ rid, recipientId = some rid ∧ recipients.lookup rid = none ∧
        objectProtoKeys.contains rid = false) :
    loadAndRender recipientId recipients config? params fetch nowISO daily? =
      .selectorView recipients ∧
    ∀ msg, loadAndRender recipientId recipients config? params fetch nowISO daily? ≠
      .errorView msg := by
  have hsel : loadAndRender recipientId recipients config? params fetch nowISO daily? =
      .selectorView recipients := by
    rcases h with rfl | ⟨rid, rfl, hlook, hproto⟩
    · rfl
    · unfold loadAndRender
      dsimp only
      by_cases hr : rid == ""
      · rw [if_pos hr]
      · rw [if_neg hr, hlook]
        dsimp only
        rw [hproto]
        simp
  refine ⟨hsel, fun msg hc => ?_⟩
  rw [hsel] at hc
  exact RenderView.noConfusion hc

/-- Closed instance of claim C6 (amended): the id "bob" is not in a map
holding only "alice" and is no prototype member, so the selector is
rendered. -/
theorem C6_witness :
    ([("alice", sampleRecipient)].lookup "bob" = (none : Option RecipientRecord)) ∧
    objectProtoKeys.contains "bob" = false ∧
    loadAndRender (some "bob") [("alice", sampleRecipient)] none []
      (fun _ _ => none) "now" none = .selectorView [("alice", sampleRecipient)] := by
  refine ⟨rfl, rfl, ?_⟩
  exact (C6_unknown_recipient_selector (some "bob") [("alice", sampleRecipient)] none []
    (fun _ _ => none) "now" none (Or.inr ⟨"bob", rfl, rfl, rfl⟩)).1

/-- Claim C8: the per-endpoint retry loop makes at most `maxAttempts` = 3
attempts, its backoff delays are strictly increasing, after all attempts
fail it returns nothing, and the orchestrator then moves on to the next
endpoint. -/
theorem C8_retry_bounded (api : APIConfig) (nowISO : String)
    (fetch : Nat → Option JValue) (fetchAll : Nat → Nat → Option JValue)
    (i : Nat) (rest : List APIConfig) :
    maxAttempts = 3 ∧
    (tryIndividualAPIFull api nowISO fetch).2.1 ≤ maxAttempts ∧
    ((tryIndividualAPIFull api nowISO fetch).2.2).Chain' (· < ·) ∧
    ((∀ k, attemptOutcome api nowISO (fetch k) = none) →
      tryIndividualAPI api nowISO fetch = none) ∧
    (tryIndividualAPI api nowISO (fetchAll i) = none →
      (tryAllLiveAPIsGo fetchAll nowISO i (api :: rest)).1 =
        (tryAllLiveAPIsGo fetchAll nowISO (i + 1) rest).1) := by
  refine ⟨rfl, tryIndividualAPIGo_attempts_le api nowISO fetch maxAttempts 1,
    (tryIndividualAPIGo_delays api nowISO fetch maxAttempts 1 (le_refl 1)).1,
    fun hall => tryIndividualAPIGo_none api nowISO fetch hall maxAttempts 1,
    fun hnone => ?_⟩
  have hstep : tryAllLiveAPIsGo fetchAll nowISO i (api :: rest) =
      (match tryIndividualAPI api nowISO (fetchAll i) with
        | some result => (some result, [api])
        | none =>
          ((tryAllLiveAPIsGo fetchAll nowISO (i + 1) rest).1,
            api :: (tryAllLiveAPIsGo fetchAll nowISO (i + 1) rest).2)) := rfl
  rw [hstep, hnone]

/-- Closed instance of claim C8: with every fetch failing, the sample
endpoint is retried and then given up, within the attempt bound. -/
theorem C8_witness :
    tryIndividualAPI sampleAPIA "now" (fun _ => none) = none ∧
    (tryIndividualAPIFull sampleAPIA "now" (fun _ => none)).2.1 ≤ maxAttempts :=
  ⟨(C8_retry_bounded sampleAPIA "now" (fun _ => none) (fun _ _ => none) 0 []).2.2.2.1
      (fun _ => rfl),
    (C8_retry_bounded sampleAPIA "now" (fun _ => none) (fun _ _ => none) 0 []).2.1⟩

/-- Claim C9: every sample `getCurrentPrice` produces is either live
(isLive, reliable, not last known) or historical (not live, last known,
not reliable), never both, and the renderer labels it "Last known value"
exactly when it is last known, else "Current value". -/
theorem C9_sample_shapes (config? : Option (List APIConfig)) (params : List String)
    (fetch : Nat → Nat → Option JValue) (nowISO : String)
    (daily? : Option (List DailyEntry)) (s : PriceSample)
    (h : getCurrentPrice config? params fetch nowISO daily? = some s) :
    ((s.isLive = true ∧ s.reliable = true ∧ s.isLastKnown = false) ∨
      (s.isLive = false ∧ s.isLastKnown = true ∧ s.reliable = false)) ∧
    ¬((s.isLive = true ∧ s.reliable = true ∧ s.isLastKnown = false) ∧
      (s.isLive = false ∧ s.isLastKnown = true ∧ s.reliable = false)) ∧
    (priceLabel s = "Last known value" ↔ s.isLastKnown = true) ∧
    (priceLabel s = "Current value" ↔ s.isLastKnown = false) := by
  have hshape := getCurrentPrice_shape h
  have hlabel1 : priceLabel s = "Last known value" ↔ s.isLastKnown = true := by
    unfold priceLabel
    by_cases hk : s.isLastKnown
    · simp [hk]
    · simp [hk]
  have hlabel2 : priceLabel s = "Current value" ↔ s.isLastKnown = false := by
    unfold priceLabel
    by_cases hk : s.isLastKnown
    · simp [hk]
    · simp [hk]
  refine ⟨?_, ?_, hlabel1, hlabel2⟩
  · rcases hshape with ⟨h1, h2, h3, _, _⟩ | ⟨h1, h2, h3⟩
    · exact Or.inl ⟨h1, h3, h2⟩
    · exact Or.inr ⟨h1, h2, h3⟩
  · rintro ⟨⟨h1, _, _⟩, ⟨h2, _, _⟩⟩
    rw [h1] at h2
    exact absurd h2 (by simp)

/-- Closed instance of claim C9: a successful run against the fallback
endpoint yields the live sample, labelled "Current value". -/
theorem C9_witness :
    getCurrentPrice none [] (fun _ _ => some sampleResponse) "now" none =
      some sampleLiveSample ∧
    (priceLabel sampleLiveSample = "Current value" ↔
      sampleLiveSample.isLastKnown = false) := by
  refine ⟨rfl, ?_⟩
  exact (C9_sample_shapes none [] (fun _ _ => some sampleResponse) "now" none
    sampleLiveSample rfl).2.2.2

/-- Claim C10: `getTimeAgo` is total over its input: a missing (falsy)
timestamp gives "unknown time", a strictly future timestamp gives
"recently", and every past timestamp gets a non-empty description picked
by the first matching threshold, in the fixed order minutes, hours, days,
weeks, months, years. -/
theorem C10_get_time_ago_total (nowMs : Int) :
    getTimeAgo nowMs none = "unknown time" ∧
    (∀ thenMs : Int, nowMs < thenMs → getTimeAgo nowMs (some thenMs) = "recently") ∧
    (∀ thenMs : Int, thenMs ≤ nowMs →
      getTimeAgo nowMs (some thenMs) ≠ "" ∧
      ((nowMs - thenMs).toNat < 60000 →
        getTimeAgo nowMs (some thenMs) = "just now") ∧
      (60000 ≤ (nowMs - thenMs).toNat → (nowMs - thenMs).toNat < 3600000 →
        getTimeAgo nowMs (some thenMs) =
          toString ((nowMs - thenMs).toNat / 60000) ++ " minute" ++
            (if (nowMs - thenMs).toNat / 60000 == 1 then "" else "s") ++ " ago") ∧
      (3600000 ≤ (nowMs - thenMs).toNat → (nowMs - thenMs).toNat < 86400000 →
        getTimeAgo nowMs (some thenMs) =
          toString ((nowMs - thenMs).toNat / 3600000) ++ " hour" ++
            (if (nowMs - thenMs).toNat / 3600000 == 1 then "" else "s") ++ " ago") ∧
      (86400000 ≤ (nowMs - thenMs).toNat → (nowMs - thenMs).toNat < 604800000 →
        getTimeAgo nowMs (some thenMs) =
          toString ((nowMs - thenMs).toNat / 86400000) ++ " day" ++
            (if (nowMs - thenMs).toNat / 86400000 == 1 then "" else "s") ++ " ago") ∧
      (604800000 ≤ (nowMs - thenMs).toNat → (nowMs - thenMs).toNat < 2592000000 →
        getTimeAgo nowMs (some thenMs) =
          toString ((nowMs - thenMs).toNat / 86400000 / 7) ++ " week" ++
            (if (nowMs - thenMs).toNat / 86400000 / 7 == 1 then "" else "s") ++ " ago") ∧
      (2592000000 ≤ (nowMs - thenMs).toNat → (nowMs - thenMs).toNat < 31536000000 →
        getTimeAgo nowMs (some thenMs) =
          toString ((nowMs - thenMs).toNat / 86400000 / 30) ++ " month" ++
            (if (nowMs - thenMs).toNat / 86400000 / 30 == 1 then "" else "s") ++ " ago") ∧
      (31536000000 ≤ (nowMs - thenMs).toNat →
        getTimeAgo nowMs (some thenMs) =
          toString ((nowMs - thenMs).toNat / 86400000 / 365) ++ " year" ++
            (if (nowMs - thenMs).toNat / 86400000 / 365 == 1 then "" else "s") ++ " ago")) := by
  refine ⟨rfl, ?_, ?_⟩
  · intro thenMs h
    have hneg : nowMs - thenMs < 0 := by omega
    unfold getTimeAgo
    dsimp only
    rw [if_pos hneg]
  · intro thenMs h
    have hpos : ¬ nowMs - thenMs < 0 := by omega
    unfold getTimeAgo
    dsimp only
    rw [if_neg hpos]
    refine ⟨?_, ?_, ?_, ?_, ?_, ?_, ?_, ?_⟩
    · split_ifs <;> first | decide | exact append_ago_ne_empty _
    · intro hb
      rw [if_pos (show (nowMs - thenMs).toNat / 60000 < 1 by omega)]
    · intro h1 h2
      rw [if_neg (show ¬ (nowMs - thenMs).toNat / 60000 < 1 by omega),
        if_pos (show (nowMs - thenMs).toNat / 60000 < 60 by omega)]
    · intro h1 h2
      rw [if_neg (show ¬ (nowMs - thenMs).toNat / 60000 < 1 by omega),
        if_neg (show ¬ (nowMs - thenMs).toNat / 60000 < 60 by omega),
        if_pos (show (nowMs - thenMs).toNat / 3600000 < 24 by omega)]
    · intro h1 h2
      rw [if_neg (show ¬ (nowMs - thenMs).toNat / 60000 < 1 by omega),
        if_neg (show ¬ (nowMs - thenMs).toNat / 60000 < 60 by omega),
        if_neg (show ¬ (nowMs - thenMs).toNat / 3600000 < 24 by omega),
        if_pos (show (nowMs - thenMs).toNat / 86400000 < 7 by omega)]
    · intro h1 h2
      rw [if_neg (show ¬ (nowMs - thenMs).toNat / 60000 < 1 by omega),
        if_neg (show ¬ (nowMs - thenMs).toNat / 60000 < 60 by omega),
        if_neg (show ¬ (nowMs - thenMs).toNat / 3600000 < 24 by omega),
        if_neg (show ¬ (nowMs - thenMs).toNat / 86400000 < 7 by omega),
        if_pos (show (nowMs - thenMs).toNat / 86400000 < 30 by omega)]
    · intro h1 h2
      rw [if_neg (show ¬ (nowMs - thenMs).toNat / 60000 < 1 by omega),
        if_neg (show ¬ (nowMs - thenMs).toNat / 60000 < 60 by omega),
        if_neg (show ¬ (nowMs - thenMs).toNat / 3600000 < 24 by omega),
        if_neg (show ¬ (nowMs - thenMs).toNat / 86400000 < 7 by omega),
        if_neg (show ¬ (nowMs - thenMs).toNat / 86400000 < 30 by omega),
        if_pos (show (nowMs - thenMs).toNat / 86400000 < 365 by omega)]
    · intro h1
      rw [if_neg (show ¬ (nowMs - thenMs).toNat / 60000 < 1 by omega),
        if_neg (show ¬ (nowMs - thenMs).toNat / 60000 < 60 by omega),
        if_neg (show ¬ (nowMs - thenMs).toNat / 3600000 < 24 by omega),
        if_neg (show ¬ (nowMs - thenMs).toNat / 86400000 < 7 by omega),
        if_neg (show ¬ (nowMs - thenMs).toNat / 86400000 < 30 by omega),
        if_neg (show ¬ (nowMs - thenMs).toNat / 86400000 < 365 by omega)]

/-- Closed instance of claim C10: five hours in the past reads
"5 hours ago", and the other cases at sample points. -/
theorem C10_witness :
    (0 : Int) ≤ 18000000 ∧ getTimeAgo 18000000 (some 0) = "5 hours ago" := by
  refine ⟨by decide, ?_⟩
  have h := ((C10_get_time_ago_total 18000000).2.2 0 (by decide)).2.2.2.1
    (by decide) (by decide)
  exact h.trans (by decide)
